import Mathlib

/-!
Verification of the conversational turn controller of the AI interviewer
front-end: a shallow embedding of the speech service (text normalization,
capture, playback), the remote interview gateway, and the interview context
(session state, message flow, status flags), together with proofs of the
behavioural properties stated in the design document.

Source files embedded:
- front-end/src/services/speechService.ts (SpeechService, DeepSeekService)
- front-end/src/contexts/InterviewContext.tsx (InterviewProvider)
- the auto-relisten variant of the provider (useEffect re-arming capture)
-/

namespace AIInterviewer

/-! ## Character classes used by the JavaScript regular expressions -/

/-- Unicode scalar value of a character, as a natural number. -/
def cv (c : Char) : Nat := c.toNat

/-- The character class of the JavaScript whitespace escape in regular
expressions (also the set removed by String.prototype.trim). -/
def isJsWs (c : Char) : Bool :=
  decide (cv c = 9) || decide (cv c = 10) || decide (cv c = 11) ||
  decide (cv c = 12) || decide (cv c = 13) || decide (cv c = 32) ||
  decide (cv c = 0xA0) || decide (cv c = 0x1680) ||
  (decide (0x2000 ≤ cv c) && decide (cv c ≤ 0x200A)) ||
  decide (cv c = 0x2028) || decide (cv c = 0x2029) || decide (cv c = 0x202F) ||
  decide (cv c = 0x205F) || decide (cv c = 0x3000) || decide (cv c = 0xFEFF)

/-- JavaScript line terminators, which the dot of a regular expression
without the s flag does not match. -/
def isLineTerm (c : Char) : Bool :=
  decide (cv c = 10) || decide (cv c = 13) ||
  decide (cv c = 0x2028) || decide (cv c = 0x2029)

/-- The word-character class of JavaScript regular expressions:
ASCII letters, digits and underscore. -/
def isWordChar (c : Char) : Bool :=
  (decide (97 ≤ cv c) && decide (cv c ≤ 122)) ||
  (decide (65 ≤ cv c) && decide (cv c ≤ 90)) ||
  (decide (48 ≤ cv c) && decide (cv c ≤ 57)) || decide (cv c = 95)

/-- The character class removed by the first replace of processText: the
listed pictographic ranges and singletons, plus the vertical bar, which the
source regular expression includes literally as a separator inside the
character class. -/
def isEmojiChar (c : Char) : Bool :=
  (decide (0x1F600 ≤ cv c) && decide (cv c ≤ 0x1F6FF)) ||
  (decide (0x1F900 ≤ cv c) && decide (cv c ≤ 0x1F9FF)) ||
  (decide (0x2600 ≤ cv c) && decide (cv c ≤ 0x26FF)) ||
  (decide (0x2700 ≤ cv c) && decide (cv c ≤ 0x27BF)) ||
  (decide (0x1F300 ≤ cv c) && decide (cv c ≤ 0x1F5FF)) ||
  (decide (0x1F700 ≤ cv c) && decide (cv c ≤ 0x1F77F)) ||
  (decide (0x1F780 ≤ cv c) && decide (cv c ≤ 0x1F7FF)) ||
  (decide (0x1F800 ≤ cv c) && decide (cv c ≤ 0x1F8FF)) ||
  (decide (0x1FA00 ≤ cv c) && decide (cv c ≤ 0x1FA6F)) ||
  (decide (0x1FA70 ≤ cv c) && decide (cv c ≤ 0x1FAFF)) ||
  decide (cv c = 0x200D) || decide (cv c = 0x2B50) || decide (cv c = 0x2B55) ||
  decide (cv c = 0x231A) || decide (cv c = 0x231B) ||
  (decide (0x23E9 ≤ cv c) && decide (cv c ≤ 0x23EF)) ||
  decide (cv c = 0x23F0) || decide (cv c = 0x23F3) ||
  decide (cv c = 0x25B6) || decide (cv c = 0x25C0) ||
  (decide (0x25FB ≤ cv c) && decide (cv c ≤ 0x25FE)) ||
  decide (cv c = 0x2614) || decide (cv c = 0x2615) ||
  (decide (0x2648 ≤ cv c) && decide (cv c ≤ 0x2653)) ||
  decide (cv c = 0x267F) || decide (cv c = 0x2693) || decide (cv c = 0x26A1) ||
  (decide (0x26AA ≤ cv c) && decide (cv c ≤ 0x26AB)) ||
  (decide (0x26BD ≤ cv c) && decide (cv c ≤ 0x26BE)) ||
  (decide (0x26C4 ≤ cv c) && decide (cv c ≤ 0x26C5)) ||
  decide (cv c = 0x26CE) || decide (cv c = 0x26D4) || decide (cv c = 0x26EA) ||
  (decide (0x26F2 ≤ cv c) && decide (cv c ≤ 0x26F3)) ||
  decide (cv c = 0x26F5) || decide (cv c = 0x26FA) || decide (cv c = 0x26FD) ||
  decide (cv c = 0x2705) || decide (cv c = 0x2728) ||
  decide (cv c = 0x274C) || decide (cv c = 0x274E) ||
  (decide (0x2753 ≤ cv c) && decide (cv c ≤ 0x2755)) ||
  decide (cv c = 0x2757) || decide (cv c = 0x2764) ||
  (decide (0x2795 ≤ cv c) && decide (cv c ≤ 0x2797)) ||
  decide (cv c = 0x27B0) || decide (cv c = 0x27BF) ||
  (decide (0x2934 ≤ cv c) && decide (cv c ≤ 0x2935)) ||
  (decide (0x2B06 ≤ cv c) && decide (cv c ≤ 0x2B07)) ||
  (decide (0x2B1B ≤ cv c) && decide (cv c ≤ 0x2B1C)) ||
  decide (cv c = 0x3030) || decide (cv c = 0x303D) ||
  decide (cv c = 0x3297) || decide (cv c = 0x3299) ||
  decide (cv c = 0x1F004) || decide (cv c = 0x1F0CF) || decide (cv c = 124)

/-- The punctuation kept by the character cleanup of processText:
comma, period, exclamation and question mark, apostrophe, double quote,
colon, em dash and hyphen. -/
def isKeptPunct (c : Char) : Bool :=
  decide (cv c = 44) || decide (cv c = 46) || decide (cv c = 33) ||
  decide (cv c = 63) || decide (cv c = 39) || decide (cv c = 34) ||
  decide (cv c = 58) || decide (cv c = 0x2014) || decide (cv c = 45)

/-- The full character class kept (not replaced by a space) by the cleanup
replace of processText: word characters, whitespace and the kept punctuation. -/
def step6Keep (c : Char) : Bool := isWordChar c || isJsWs c || isKeptPunct c

/-! ## The processText pipeline (SpeechService.processText)

Each global regular-expression replace of the source is embedded as a
function on character lists, applied in the source's order:
emoji removal, bold, italic, inline code, headers, cleanup, whitespace
collapse and trim.  The bounded-skip replaces carry an explicit fuel
argument (initialised to the list length, which suffices because every
recursive call consumes at least one character) so that every function is
structurally recursive and evaluates inside the kernel. -/

/-- Emoji removal: the first replace deletes every character of the class. -/
def removeEmojis (l : List Char) : List Char := l.filter (fun c => !isEmojiChar c)

/-- Scan for the closing double star of a bold span: the lazy inner group
matches the shortest prefix of non-line-terminator characters followed by
a double star.  Returns the inner text and the remainder after the closer. -/
def findClose2 : List Char → Option (List Char × List Char)
  | '*' :: '*' :: rest => some ([], rest)
  | c :: rest =>
    if isLineTerm c then none
    else
      match findClose2 rest with
      | some (inner, r) => some (c :: inner, r)
      | none => none
  | [] => none

/-- One pass of the bold replace: at a double star, replace the span by its
inner text and continue after the closer; otherwise advance one character. -/
def replaceBoldF : Nat → List Char → List Char
  | 0, l => l
  | _ + 1, [] => []
  | fuel + 1, c :: cs =>
    if c = '*' then
      match cs with
      | '*' :: rest =>
        match findClose2 rest with
        | some (inner, r) => inner ++ replaceBoldF fuel r
        | none => c :: replaceBoldF fuel cs
      | _ => c :: replaceBoldF fuel cs
    else c :: replaceBoldF fuel cs

def replaceBold (l : List Char) : List Char := replaceBoldF l.length l

/-- Scan for the closing single delimiter (star for italics, grave accent
for inline code), with the same lazy, line-bounded inner group. -/
def findClose1 (d : Char) : List Char → Option (List Char × List Char)
  | c :: rest =>
    if c = d then some ([], rest)
    else if isLineTerm c then none
    else
      match findClose1 d rest with
      | some (inner, r) => some (c :: inner, r)
      | none => none
  | [] => none

/-- The single-delimiter replace (italics and inline code). -/
def replaceDelim1F (d : Char) : Nat → List Char → List Char
  | 0, l => l
  | _ + 1, [] => []
  | fuel + 1, c :: cs =>
    if c = d then
      match findClose1 d cs with
      | some (inner, r) => inner ++ replaceDelim1F d fuel r
      | none => c :: replaceDelim1F d fuel cs
    else c :: replaceDelim1F d fuel cs

def replaceDelim1 (d : Char) (l : List Char) : List Char := replaceDelim1F d l.length l

/-- Length of the maximal prefix of number signs. -/
def hashRun : List Char → Nat
  | c :: cs => if cv c = 35 then hashRun cs + 1 else 0
  | [] => 0

/-- The header replace: one to six number signs followed by a whitespace
character are deleted (greedy repetition over a single-character class, so a
match exists at a position exactly when the maximal run there has length at
most six and is followed by whitespace); otherwise advance one character. -/
def replaceHeadersF : Nat → List Char → List Char
  | 0, l => l
  | _ + 1, [] => []
  | fuel + 1, c :: cs =>
    if cv c = 35 then
      if hashRun (c :: cs) ≤ 6 then
        match (c :: cs).drop (hashRun (c :: cs)) with
        | w :: r =>
          if isJsWs w then replaceHeadersF fuel r
          else c :: replaceHeadersF fuel cs
        | [] => c :: replaceHeadersF fuel cs
      else c :: replaceHeadersF fuel cs
    else c :: replaceHeadersF fuel cs

def replaceHeaders (l : List Char) : List Char := replaceHeadersF l.length l

/-- The cleanup replace: every character outside the kept class becomes a
space (surrogate-level replacement of an astral character yields two spaces,
which the following whitespace collapse makes indistinguishable from one). -/
def replaceSpecial (l : List Char) : List Char :=
  l.map (fun c => if step6Keep c then c else ' ')

/-- Whitespace collapse: every maximal run of whitespace becomes one space.
The flag records whether the previous character was part of a run still
being swallowed. -/
def collapseWsAux : Bool → List Char → List Char
  | _, [] => []
  | true, c :: cs =>
    if isJsWs c then collapseWsAux true cs
    else c :: collapseWsAux false cs
  | false, c :: cs =>
    if isJsWs c then ' ' :: collapseWsAux true cs
    else c :: collapseWsAux false cs

def collapseWs (l : List Char) : List Char := collapseWsAux false l

/-- String.prototype.trim: drop whitespace from both ends. -/
def jsTrimList (l : List Char) : List Char :=
  ((l.dropWhile isJsWs).reverse.dropWhile isJsWs).reverse

def jsTrim (s : String) : String := String.mk (jsTrimList s.toList)

/-- SpeechService.processText: the full normalization pipeline, in source
order. -/
def processTextList (l : List Char) : List Char :=
  jsTrimList (collapseWs (replaceSpecial (replaceHeaders
    (replaceDelim1 (Char.ofNat 96) (replaceDelim1 '*' (replaceBold (removeEmojis l)))))))

def processText (s : String) : String := String.mk (processTextList s.toList)

/-! ## SpeechService.speak -/

/-- Observable outcome of one speak call. -/
inductive SpeakOutcome
  | rejectedNotSupported
  | resolvedNoAudio
  | speaking (utteranceText : String)
deriving DecidableEq

/-- SpeechService.speak up to its first await: reject when synthesis is
unavailable; otherwise cancel ongoing speech, normalize the text with
processText, resolve immediately (producing no utterance) when the
normalized text trims to empty, and otherwise hand the normalized text to
the synthesizer. -/
def speak (synthesisAvailable : Bool) (text : String) : SpeakOutcome :=
  if synthesisAvailable = false then SpeakOutcome.rejectedNotSupported
  else
    let processedText := processText text
    if jsTrim processedText = "" then SpeakOutcome.resolvedNoAudio
    else SpeakOutcome.speaking processedText

/-! ## SpeechService capture (startListening / stopListening) -/

/-- The service-level capture state: whether a recognition object exists
(the platform supports capture) and the service's private listening flag. -/
structure SpeechSvcState where
  recognitionAvailable : Bool
  listening : Bool
deriving DecidableEq

/-- Immediate outcome of a startListening call. -/
inductive StartListeningResult
  | rejectedNotSupported
  | rejectedAlreadyListening
  | started
deriving DecidableEq

/-- SpeechService.startListening up to its first suspension: reject when
recognition is unavailable, reject at once when a capture is already
active (single flight), otherwise mark the service listening and start
recognition. -/
def startListening (svc : SpeechSvcState) : StartListeningResult × SpeechSvcState :=
  if svc.recognitionAvailable = false then
    (StartListeningResult.rejectedNotSupported, svc)
  else if svc.listening then
    (StartListeningResult.rejectedAlreadyListening, svc)
  else
    (StartListeningResult.started, { svc with listening := true })

/-- The onend handler of the pending capture: resolve with the trimmed
accumulated final transcript when it is nonempty, otherwise reject with the
no-speech error. -/
def settleOnEnd (finalTranscript : String) : Except String String :=
  if jsTrim finalTranscript = "" then
    Except.error "No speech detected. Please try speaking clearly."
  else Except.ok (jsTrim finalTranscript)

/-- SpeechService.stopListening on an in-flight capture, composed with the
onend handler it triggers: recognition stops, the listening flag clears, and
the pending startListening promise settles via settleOnEnd on whatever final
transcript was accumulated before the cancellation.  When no capture is in
flight nothing happens and no promise settles. -/
def stopListeningSettle (svc : SpeechSvcState) (finalTranscript : String) :
    SpeechSvcState × Option (Except String String) :=
  if svc.recognitionAvailable && svc.listening then
    ({ svc with listening := false }, some (settleOnEnd finalTranscript))
  else (svc, none)

/-! ## Data model (front-end/src/types/index.ts)

Dates and identifiers generated from Date.now() are modeled by a logical
clock of naturals carried in the controller state. -/

inductive Sender
  | user
  | ai
deriving DecidableEq

inductive Difficulty
  | easy
  | medium
  | hard
deriving DecidableEq

inductive Personality
  | intimidator
  | friendly
  | robotic
  | curveball
deriving DecidableEq

structure InterviewSetup where
  industry : String
  difficulty : Difficulty
  personality : Personality
  role : Option String
deriving DecidableEq

structure Message where
  id : Nat
  content : String
  sender : Sender
  timestamp : Nat
deriving DecidableEq

structure InterviewFeedback where
  confidenceScore : Nat
  strengths : List String
  improvements : List String
  overallRating : Nat
  communication : Nat
  technicalKnowledge : Nat
  problemSolving : Nat
  culturalFit : Nat
deriving DecidableEq

structure InterviewSession where
  id : Nat
  setup : InterviewSetup
  messages : List Message
  startTime : Nat
  endTime : Option Nat
  feedback : Option InterviewFeedback
deriving DecidableEq

/-! ## Remote interview gateway (DeepSeekService) -/

inductive ChatRole
  | system
  | user
  | assistant
deriving DecidableEq

structure ChatMsg where
  role : ChatRole
  content : String
deriving DecidableEq

/-- The fixed per-personality fallback lists of DeepSeekService.sendMessage. -/
def fallbackResponses (p : Personality) : List String :=
  match p with
  | Personality.intimidator =>
    ["That's not convincing. Give me something better.",
     "I don't buy that. Prove it to me.",
     "Weak answer. What else do you have?",
     "That's exactly what everyone says. Be original.",
     "Not impressed. Try again."]
  | Personality.friendly =>
    ["That's interesting! Can you tell me more about that experience?",
     "I love hearing about that! How did that make you feel?",
     "That sounds like a great learning opportunity. What did you take away from it?",
     "You seem passionate about this. What drives that passion?",
     "That's wonderful! How do you think that experience prepared you for this role?"]
  | Personality.robotic =>
    ["Noted. Please provide additional details.",
     "Understood. Specify your methodology.",
     "Data recorded. Quantify your results.",
     "Information processed. Elaborate on metrics.",
     "Input received. Define success parameters."]
  | Personality.curveball =>
    ["Here's a curveball: If you were a kitchen appliance, which one would you be and why?",
     "Let's try something different - how would you explain our company to a 5-year-old?",
     "Interesting! Now, if you had to choose a theme song for your work style, what would it be?",
     "Plot twist: You're stranded on a desert island with only office supplies. How do you survive?",
     "Curveball time: What's the most unusual way you've solved a problem?"]

/-- The catch branch draws responses[floor(random * responses.length)]; the
random draw is modeled by an arbitrary natural reduced by the list length. -/
def pickFallback (p : Personality) (rand : Nat) : String :=
  (fallbackResponses p).getD (rand % (fallbackResponses p).length) ""

/-- Outcome of the fetch to the completion endpoint, as far as sendMessage
observes it: a transport failure (the fetch rejects), a non-success status,
or a parsed body whose choices are the listed message contents. -/
inductive HttpOutcome
  | netError
  | httpError (status : Nat) (body : String)
  | okResponse (choices : List String)
deriving DecidableEq

/-- Whether the outcome is one of the failures the try block turns into a
fallback draw: anything except a success with a nonempty choices list. -/
def FailureOutcome : HttpOutcome → Prop
  | HttpOutcome.okResponse (_ :: _) => False
  | _ => True

set_option linter.unusedVariables false in
/-- DeepSeekService.sendMessage.  The credential check precedes the try
block, so a missing key rejects the returned promise; every failure inside
the try block (fetch rejection, non-success status, missing or empty
choices) is caught and resolved with a canned per-personality fallback. -/
def sendMessage (apiKey : String) (outcome : HttpOutcome) (rand : Nat)
    (messages : List ChatMsg) (setup : InterviewSetup) : Except String String :=
  if apiKey = "" then Except.error "OpenRouter API key is not configured"
  else
    match outcome with
    | HttpOutcome.okResponse (c :: _) => Except.ok (jsTrim c)
    | _ => Except.ok (pickFallback setup.personality rand)

/-! ## Turn controller (InterviewProvider of InterviewContext.tsx)

The provider is single-threaded: each exported operation runs synchronously
up to its first await and resumes when the awaited promise settles.  The
position inside the one outstanding operation chain (the design document's
one-outstanding-request discipline) is an explicit phase: siGateway/siSpeak
for startInterview awaiting the gateway or playback, amGateway/amSpeak for
addMessage (with a flag recording whether it was entered from
startVoiceInput, whose cleanup then still has to run), and vi for
startVoiceInput awaiting the capture transcript. -/

inductive Phase
  | idle
  | siGateway (setup : InterviewSetup)
  | siSpeak
  | amGateway (fromVoice : Bool) (content : String) (history : List ChatMsg)
  | amSpeak (fromVoice : Bool)
  | vi
deriving DecidableEq

structure CtrlState where
  apiKeyPresent : Bool
  recognitionSupported : Bool
  ttsSupported : Bool
  currentSetup : Option InterviewSetup
  currentSession : Option InterviewSession
  isAiResponding : Bool
  isVoiceEnabled : Bool
  isSpeaking : Bool
  isListening : Bool
  phase : Phase
  now : Nat
deriving DecidableEq

/-- Conversion of the transcript to the role-tagged history sent to the
gateway: ai messages become assistant turns, user messages user turns. -/
def toHistory (msgs : List Message) : List ChatMsg :=
  msgs.map (fun m =>
    { role := match m.sender with
        | Sender.ai => ChatRole.assistant
        | Sender.user => ChatRole.user,
      content := m.content })

/-- addMessage up to its first await.  Returns immediately when no session
is active.  Otherwise the message is appended; for a user message the
provider additionally sets isAiResponding and issues the gateway request
whose history is the pre-append transcript converted by toHistory plus the
just-submitted user turn. -/
def addMessage (fromVoice : Bool) (s : CtrlState) (content : String)
    (sender : Sender) : CtrlState :=
  match s.currentSession with
  | none => s
  | some sess =>
    let message : Message :=
      { id := s.now, content := content, sender := sender, timestamp := s.now }
    let sess' := { sess with messages := sess.messages ++ [message] }
    match sender with
    | Sender.user =>
      { s with currentSession := some sess',
               isAiResponding := true,
               phase := Phase.amGateway fromVoice content
                 (toHistory sess.messages ++ [{ role := ChatRole.user, content := content }]),
               now := s.now + 1 }
    | Sender.ai =>
      { s with currentSession := some sess', now := s.now + 1 }

/-- Resumption of addMessage when the gateway resolves: append the AI
message, then either enter playback (voice enabled and synthesis available)
or run the finally blocks (clear isAiResponding and, when entered from
startVoiceInput, clear isListening). -/
def amGatewayReturn (s : CtrlState) (fromVoice : Bool) (reply : String) : CtrlState :=
  let aiMessage : Message :=
    { id := s.now + 1, content := reply, sender := Sender.ai, timestamp := s.now }
  let s1 : CtrlState := { s with
    currentSession := s.currentSession.map
      (fun sess => { sess with messages := sess.messages ++ [aiMessage] }),
    now := s.now + 1 }
  if s.isVoiceEnabled && s.ttsSupported then
    { s1 with isSpeaking := true, phase := Phase.amSpeak fromVoice }
  else
    { s1 with isAiResponding := false,
              isListening := if fromVoice then false else s1.isListening,
              phase := Phase.idle }

/-- Resumption of addMessage when the gateway rejects (which happens exactly
when the credential is absent): the catch block appends the apology
fallback message, then the finally blocks run. -/
def amGatewayFail (s : CtrlState) (fromVoice : Bool) : CtrlState :=
  let fallbackMessage : Message :=
    { id := s.now + 1,
      content := "I apologize, but I'm having trouble responding right now. Could you please repeat your last point?",
      sender := Sender.ai, timestamp := s.now }
  { s with
    currentSession := s.currentSession.map
      (fun sess => { sess with messages := sess.messages ++ [fallbackMessage] }),
    isAiResponding := false,
    isListening := if fromVoice then false else s.isListening,
    phase := Phase.idle, now := s.now + 1 }

/-- Resumption of addMessage when the awaited playback settles (success or
failure): speakMessage's finally clears isSpeaking, addMessage's finally
clears isAiResponding, and the startVoiceInput finally clears isListening
when applicable. -/
def amSpeakDone (s : CtrlState) (fromVoice : Bool) : CtrlState :=
  { s with isSpeaking := false, isAiResponding := false,
           isListening := if fromVoice then false else s.isListening,
           phase := Phase.idle }

/-- startInterview up to its first await: create the fresh session with an
empty transcript, set isAiResponding, and issue the opening gateway request. -/
def startInterview (s : CtrlState) (setup : InterviewSetup) : CtrlState :=
  let session : InterviewSession :=
    { id := s.now, setup := setup, messages := [], startTime := s.now,
      endTime := none, feedback := none }
  { s with currentSession := some session, isAiResponding := true,
           phase := Phase.siGateway setup, now := s.now + 1 }

/-- Resumption of startInterview when the gateway resolves: the transcript
is set to the single opening AI message, then playback starts when voice is
enabled (and synthesis is available), else the finally block runs. -/
def siGatewayReturn (s : CtrlState) (reply : String) : CtrlState :=
  let aiMessage : Message :=
    { id := s.now, content := reply, sender := Sender.ai, timestamp := s.now }
  let s1 : CtrlState := { s with
    currentSession := s.currentSession.map
      (fun sess => { sess with messages := [aiMessage] }),
    now := s.now + 1 }
  if s.isVoiceEnabled && s.ttsSupported then
    { s1 with isSpeaking := true, phase := Phase.siSpeak }
  else
    { s1 with isAiResponding := false, phase := Phase.idle }

/-- Resumption of startInterview when the gateway rejects: the catch block
only raises a toast, so no message is appended; the finally block clears
isAiResponding. -/
def siGatewayFail (s : CtrlState) : CtrlState :=
  { s with isAiResponding := false, phase := Phase.idle }

/-- Resumption of startInterview when the opening playback settles. -/
def siSpeakDone (s : CtrlState) : CtrlState :=
  { s with isSpeaking := false, isAiResponding := false, phase := Phase.idle }

/-- startVoiceInput up to its first await: nothing happens when recognition
is unsupported (only a toast) or when already listening (explicit guard);
otherwise isListening is set and the capture starts. -/
def startVoiceInput (s : CtrlState) : CtrlState :=
  if s.recognitionSupported = false then s
  else if s.isListening then s
  else { s with isListening := true, phase := Phase.vi }

/-- Resumption of startVoiceInput when the capture resolves with a (trimmed,
nonempty) transcript: addMessage is awaited with the transcript as a user
message; when no session is active addMessage returns at once and the
finally block clears isListening. -/
def viTranscriptOk (s : CtrlState) (t : String) : CtrlState :=
  match s.currentSession with
  | some _ =>
    if jsTrim t = "" then { s with isListening := false, phase := Phase.idle }
    else addMessage true s t Sender.user
  | none => { s with isListening := false, phase := Phase.idle }

/-- Resumption of startVoiceInput when the capture rejects (no speech, stop
with empty transcript, or a recognition error): the catch block only raises
a toast; the finally block clears isListening. -/
def viTranscriptFail (s : CtrlState) : CtrlState :=
  { s with isListening := false, phase := Phase.idle }

/-- stopVoiceInput: when listening, stop the service capture and clear the
flag.  The pending capture promise settles separately (through the
recognition onend handler), so the phase is unchanged. -/
def stopVoiceInput (s : CtrlState) : CtrlState :=
  if s.isListening then { s with isListening := false } else s

/-- The setIsVoiceEnabled setter exposed to the presentation layer. -/
def setIsVoiceEnabled (s : CtrlState) (b : Bool) : CtrlState :=
  { s with isVoiceEnabled := b }

/-- The feedback record endInterview builds; the six random draws are
modeled by arbitrary naturals. -/
def mkFeedback (r1 r2 r3 r4 r5 r6 : Nat) : InterviewFeedback :=
  { confidenceScore := r1 % 30 + 70,
    strengths := ["Clear communication skills", "Good problem-solving approach",
                  "Relevant experience mentioned"],
    improvements := ["Provide more specific examples", "Show more enthusiasm",
                     "Ask thoughtful questions"],
    overallRating := r2 % 2 + 4,
    communication := r3 % 30 + 70,
    technicalKnowledge := r4 % 30 + 70,
    problemSolving := r5 % 30 + 70,
    culturalFit := r6 % 30 + 70 }

/-- endInterview: returns immediately when no session is active; otherwise
sets endTime and feedback, then stops playback and capture. -/
def endInterview (s : CtrlState) (fb : InterviewFeedback) : CtrlState :=
  match s.currentSession with
  | none => s
  | some sess =>
    let s1 := { s with
      currentSession := some { sess with endTime := some s.now, feedback := some fb },
      now := s.now + 1 }
    let s2 := { s1 with isSpeaking := false }
    if s2.isListening then { s2 with isListening := false } else s2

/-- One scheduling step of the provider: either a presentation-layer call
(possible only when its button is enabled and no other operation chain is
outstanding) or the settlement of the one awaited promise. -/
inductive Step : CtrlState → CtrlState → Prop
  | startIv (s : CtrlState) (setup : InterviewSetup)
      (hp : s.phase = Phase.idle) :
      Step s (startInterview s setup)
  | siOk (s : CtrlState) (st : InterviewSetup) (reply : String)
      (hp : s.phase = Phase.siGateway st) (hk : s.apiKeyPresent = true) :
      Step s (siGatewayReturn s reply)
  | siFail (s : CtrlState) (st : InterviewSetup)
      (hp : s.phase = Phase.siGateway st) (hk : s.apiKeyPresent = false) :
      Step s (siGatewayFail s)
  | siSpeak (s : CtrlState) (hp : s.phase = Phase.siSpeak) :
      Step s (siSpeakDone s)
  | submitUser (s : CtrlState) (content : String)
      (hp : s.phase = Phase.idle) (ha : s.isAiResponding = false)
      (hl : s.isListening = false) (hc : jsTrim content ≠ "") :
      Step s (addMessage false s content Sender.user)
  | amOk (s : CtrlState) (fv : Bool) (content : String) (hist : List ChatMsg)
      (reply : String)
      (hp : s.phase = Phase.amGateway fv content hist) (hk : s.apiKeyPresent = true) :
      Step s (amGatewayReturn s fv reply)
  | amFail (s : CtrlState) (fv : Bool) (content : String) (hist : List ChatMsg)
      (hp : s.phase = Phase.amGateway fv content hist) (hk : s.apiKeyPresent = false) :
      Step s (amGatewayFail s fv)
  | amSpeak (s : CtrlState) (fv : Bool) (hp : s.phase = Phase.amSpeak fv) :
      Step s (amSpeakDone s fv)
  | voiceStart (s : CtrlState)
      (hp : s.phase = Phase.idle) (ha : s.isAiResponding = false) :
      Step s (startVoiceInput s)
  | viOk (s : CtrlState) (t : String)
      (hp : s.phase = Phase.vi) (ht : jsTrim t = t) (hne : t ≠ "") :
      Step s (viTranscriptOk s t)
  | viFail (s : CtrlState) (hp : s.phase = Phase.vi) :
      Step s (viTranscriptFail s)
  | stopVoice (s : CtrlState) :
      Step s (stopVoiceInput s)
  | toggleVoice (s : CtrlState) (b : Bool) :
      Step s (setIsVoiceEnabled s b)
  | endIv (s : CtrlState) (r1 r2 r3 r4 r5 r6 : Nat) :
      Step s (endInterview s (mkFeedback r1 r2 r3 r4 r5 r6))

/-- The provider's initial state: no session, all flags false, the
environment (credential, capture and synthesis support) fixed for the run. -/
def initState (apiKey recog tts : Bool) : CtrlState :=
  { apiKeyPresent := apiKey, recognitionSupported := recog, ttsSupported := tts,
    currentSetup := none, currentSession := none,
    isAiResponding := false, isVoiceEnabled := false,
    isSpeaking := false, isListening := false,
    phase := Phase.idle, now := 1 }

/-- Reachability from the initial state under the step relation. -/
def Reachable (apiKey recog tts : Bool) (s : CtrlState) : Prop :=
  Relation.ReflTransGen Step (initState apiKey recog tts) s

/-- Phases in which no playback is in progress. -/
def quietPhase : Phase → Bool
  | Phase.idle => true
  | Phase.vi => true
  | Phase.siGateway _ => true
  | Phase.amGateway _ _ _ => true
  | _ => false

/-- Phases within a startInterview or addMessage operation chain. -/
def respondingPhase : Phase → Bool
  | Phase.idle => false
  | Phase.vi => false
  | _ => true

/-- The flag invariant the controller actually maintains: isSpeaking is
false outside the playback phases, and isAiResponding is true throughout a
startInterview or addMessage chain (in particular during playback). -/
def FlagInv (s : CtrlState) : Prop :=
  (quietPhase s.phase = true → s.isSpeaking = false) ∧
  (respondingPhase s.phase = true → s.isAiResponding = true)

/-- The session invariant: the session identifier and every message
timestamp lie below the clock, timestamps are non-decreasing in insertion
order, and while the opening gateway request is outstanding the transcript
is still empty. -/
def SessionInv (s : CtrlState) : Prop :=
  ∀ sess, s.currentSession = some sess →
    sess.id < s.now ∧
    (∀ m ∈ sess.messages, m.timestamp < s.now) ∧
    List.Pairwise (fun m1 m2 => m1.timestamp ≤ m2.timestamp) sess.messages ∧
    (∀ st, s.phase = Phase.siGateway st → sess.messages = [])

/-- Transcript preservation across one step: whenever both states carry a
session with the same identifier, the earlier transcript is a prefix of the
later one (so no existing message is removed or mutated). -/
def MessagesPreserved (s s' : CtrlState) : Prop :=
  ∀ a b, s.currentSession = some a → s'.currentSession = some b →
    a.id = b.id → List.IsPrefix a.messages b.messages

/-- Timestamps of the transcript are monotonically non-decreasing. -/
def TimestampsSorted (s : CtrlState) : Prop :=
  ∀ sess, s.currentSession = some sess →
    List.Pairwise (fun m1 m2 => m1.timestamp ≤ m2.timestamp) sess.messages

/-! ## Concrete runs used by the counterexamples and witnesses -/

def setup0 : InterviewSetup :=
  { industry := "tech", difficulty := Difficulty.easy,
    personality := Personality.friendly, role := none }

/-- A session start followed by a full user turn with voice enabled, in an
environment with a credential and both voice capabilities: the state during
the AI playback started from within the user-message turn. -/
def c1State : CtrlState :=
  amGatewayReturn
    (addMessage false
      (siSpeakDone
        (siGatewayReturn
          (startInterview
            (setIsVoiceEnabled (initState true true true) true)
            setup0)
          "Hello! Please introduce yourself."))
      "I have 5 years of experience" Sender.user)
    false "Great, tell me more about those years."

/-- A session start in an environment without a credential: the gateway
request rejects and the run returns to idle. -/
def c2State : CtrlState :=
  siGatewayFail (startInterview (initState false true true) setup0)

/-! ## The auto-relisten provider variant (unnamed source, part 001)

This variant of InterviewProvider adds a level-triggered effect that
re-arms capture whenever nothing is outstanding, and its startVoiceInput
first stops playback (then waits half a second) when invoked while
speaking.  Only the flag fragment of the state matters to the rule. -/

structure AutoState where
  recognitionSupported : Bool
  isSpeaking : Bool
  isVoiceEnabled : Bool
  isAiResponding : Bool
  isListening : Bool
deriving DecidableEq

/-- The guard of the re-listen effect: not speaking, voice enabled, not
AI-responding, not already listening. -/
def relistenCondition (s : AutoState) : Bool :=
  !s.isSpeaking && s.isVoiceEnabled && !s.isAiResponding && !s.isListening

/-- The variant's startVoiceInput up to its first await: unsupported
recognition or an already-active capture changes nothing; an active
playback is stopped and the run suspends at the half-second delay;
otherwise isListening is set and the capture starts. -/
def startVoiceInputAuto (s : AutoState) : AutoState :=
  if s.recognitionSupported = false then s
  else if s.isListening then s
  else if s.isSpeaking then { s with isSpeaking := false }
  else { s with isListening := true }

/-- One evaluation of the re-listen effect: invoke startVoiceInput exactly
when the guard holds. -/
def autoRelistenEffect (s : AutoState) : AutoState :=
  if relistenCondition s then startVoiceInputAuto s else s

/-- The character set processText can emit: ASCII word characters, the
plain space, and the kept punctuation. -/
def allowedOutChar (c : Char) : Bool :=
  isWordChar c || decide (cv c = 32) || isKeptPunct c

/-- Adjacent characters are not both whitespace (the separator shape of the
collapsed pipeline output). -/
def NoWsPair (a b : Char) : Prop := ¬(isJsWs a = true ∧ isJsWs b = true)

/-! # Theorems -/

/-! ## Controller flag invariant (claim C1) -/

theorem flagInv_init (apiKey recog tts : Bool) : FlagInv (initState apiKey recog tts) := by
  constructor
  · intro _; rfl
  · intro h; simp [initState, respondingPhase] at h

theorem flagInv_step {s s' : CtrlState} (h : FlagInv s) (hs : Step s s') : FlagInv s' := by
  obtain ⟨h1, h2⟩ := h
  cases hs with
  | startIv setup hp =>
    refine ⟨?_, ?_⟩
    · intro _; exact h1 (by simp [hp, quietPhase])
    · intro _; rfl
  | siOk st reply hp hk =>
    have hsp : s.isSpeaking = false := h1 (by simp [hp, quietPhase])
    have hai : s.isAiResponding = true := h2 (by simp [hp, respondingPhase])
    unfold siGatewayReturn
    split
    · exact ⟨by intro hq; simp [quietPhase] at hq, by intro _; exact hai⟩
    · exact ⟨by intro _; exact hsp, by intro hq; simp [respondingPhase] at hq⟩
  | siFail st hp hk =>
    have hsp : s.isSpeaking = false := h1 (by simp [hp, quietPhase])
    exact ⟨by intro _; exact hsp, by intro hq; simp [siGatewayFail, respondingPhase] at hq⟩
  | siSpeak hp =>
    exact ⟨by intro _; rfl, by intro hq; simp [siSpeakDone, respondingPhase] at hq⟩
  | submitUser content hp ha hl hc =>
    have hsp : s.isSpeaking = false := h1 (by simp [hp, quietPhase])
    unfold addMessage
    split
    · exact ⟨h1, h2⟩
    · exact ⟨by intro _; exact hsp, by intro _; rfl⟩
  | amOk fv content hist reply hp hk =>
    have hsp : s.isSpeaking = false := h1 (by simp [hp, quietPhase])
    have hai : s.isAiResponding = true := h2 (by simp [hp, respondingPhase])
    unfold amGatewayReturn
    split
    · exact ⟨by intro hq; simp [quietPhase] at hq, by intro _; exact hai⟩
    · exact ⟨by intro _; exact hsp, by intro hq; simp [respondingPhase] at hq⟩
  | amFail fv content hist hp hk =>
    have hsp : s.isSpeaking = false := h1 (by simp [hp, quietPhase])
    exact ⟨by intro _; exact hsp, by intro hq; simp [amGatewayFail, respondingPhase] at hq⟩
  | amSpeak fv hp =>
    exact ⟨by intro _; rfl, by intro hq; simp [amSpeakDone, respondingPhase] at hq⟩
  | voiceStart hp ha =>
    have hsp : s.isSpeaking = false := h1 (by simp [hp, quietPhase])
    unfold startVoiceInput
    split
    · exact ⟨h1, h2⟩
    · split
      · exact ⟨h1, h2⟩
      · exact ⟨by intro _; exact hsp, by intro hq; simp [respondingPhase] at hq⟩
  | viOk t hp ht hne =>
    have hsp : s.isSpeaking = false := h1 (by simp [hp, quietPhase])
    unfold viTranscriptOk
    split
    · split
      · exact ⟨by intro _; exact hsp, by intro hq; simp [respondingPhase] at hq⟩
      · unfold addMessage
        split
        · exact ⟨h1, h2⟩
        · exact ⟨by intro _; exact hsp, by intro _; rfl⟩
    · exact ⟨by intro _; exact hsp, by intro hq; simp [respondingPhase] at hq⟩
  | viFail hp =>
    have hsp : s.isSpeaking = false := h1 (by simp [hp, quietPhase])
    exact ⟨by intro _; exact hsp, by intro hq; simp [viTranscriptFail, respondingPhase] at hq⟩
  | stopVoice =>
    unfold stopVoiceInput
    split
    · exact ⟨h1, h2⟩
    · exact ⟨h1, h2⟩
  | toggleVoice b =>
    exact ⟨h1, h2⟩
  | endIv r1 r2 r3 r4 r5 r6 =>
    unfold endInterview
    split
    · exact ⟨h1, h2⟩
    · dsimp only
      split
      · exact ⟨by intro _; rfl, h2⟩
      · exact ⟨by intro _; rfl, h2⟩

theorem reachable_flagInv {apiKey recog tts : Bool} {s : CtrlState}
    (h : Reachable apiKey recog tts s) : FlagInv s := by
  induction h with
  | refl => exact flagInv_init apiKey recog tts
  | tail _ hstep ih => exact flagInv_step ih hstep

/-- The run leading to c1State is a run of the controller. -/
theorem reach_c1State : Reachable true true true c1State := by
  have t1 : Relation.ReflTransGen Step (initState true true true)
      (setIsVoiceEnabled (initState true true true) true) :=
    Relation.ReflTransGen.single (Step.toggleVoice _ true)
  have t2 := t1.tail (Step.startIv _ setup0 rfl)
  have t3 := t2.tail (Step.siOk _ setup0 "Hello! Please introduce yourself." rfl rfl)
  have t4 := t3.tail (Step.siSpeak _ rfl)
  have t5 := t4.tail (Step.submitUser _ "I have 5 years of experience" rfl rfl rfl (by decide))
  exact t5.tail (Step.amOk _ false "I have 5 years of experience" _
    "Great, tell me more about those years." rfl rfl)

/-! ## Session invariant (claim C3) -/

theorem pairwise_snoc {l : List Message} {m : Message}
    (h : List.Pairwise (fun m1 m2 => m1.timestamp ≤ m2.timestamp) l)
    (hm : ∀ x ∈ l, x.timestamp ≤ m.timestamp) :
    List.Pairwise (fun m1 m2 => m1.timestamp ≤ m2.timestamp) (l ++ [m]) := by
  refine List.pairwise_append.mpr ⟨h, List.pairwise_singleton _ _, ?_⟩
  intro a ha b hb
  rcases List.mem_singleton.mp hb with rfl
  exact hm a ha

theorem sessionInv_init (apiKey recog tts : Bool) :
    SessionInv (initState apiKey recog tts) := by
  intro sess h
  simp [initState] at h

/-- A state whose session is the old one with one message appended, stamped
with the old clock, whose clock advanced, and whose phase is not an opening
gateway wait, satisfies the session invariant. -/
theorem sessionInv_append {s : CtrlState} (h : SessionInv s) {sess : InterviewSession}
    (ha : s.currentSession = some sess) (m : Message) (hts : m.timestamp = s.now)
    {s' : CtrlState}
    (hsess : s'.currentSession = some { sess with messages := sess.messages ++ [m] })
    (hnow : s'.now = s.now + 1)
    (hph : ∀ st, s'.phase ≠ Phase.siGateway st) :
    SessionInv s' := by
  intro b hb
  rw [hsess] at hb
  injection hb with hb
  subst hb
  obtain ⟨hid, hts', hpw, _⟩ := h sess ha
  refine ⟨by dsimp only; omega, ?_, ?_, ?_⟩
  · intro x hx
    rcases List.mem_append.mp hx with hx | hx
    · have := hts' x hx; omega
    · rcases List.mem_singleton.mp hx with rfl; omega
  · exact pairwise_snoc hpw (fun x hx => by have := hts' x hx; omega)
  · intro st hphase; exact absurd hphase (hph st)

/-- A state whose session and transcript are unchanged, whose clock did not
go back, and whose phase is an opening gateway wait only if it already was,
keeps the session invariant. -/
theorem sessionInv_carry {s s' : CtrlState} (h : SessionInv s)
    (hsess : s'.currentSession = s.currentSession)
    (hnow : s.now ≤ s'.now)
    (hph : ∀ st, s'.phase = Phase.siGateway st → s.phase = Phase.siGateway st) :
    SessionInv s' := by
  intro sess heq
  rw [hsess] at heq
  obtain ⟨hid, hts, hpw, hsi⟩ := h sess heq
  exact ⟨by omega, fun m hm => by have := hts m hm; omega, hpw,
    fun st hq => hsi st (hph st hq)⟩

theorem sessionInv_step {s s' : CtrlState} (h : SessionInv s) (hs : Step s s') :
    SessionInv s' := by
  cases hs with
  | startIv setup hp =>
    intro sess heq
    simp only [startInterview, Option.some.injEq] at heq
    subst heq
    exact ⟨Nat.lt_succ_self _, by simp, by simp, fun st _ => rfl⟩
  | siOk st reply hp hk =>
    unfold siGatewayReturn
    dsimp only
    split
    · cases hcs : s.currentSession with
      | none => intro sess heq; simp at heq
      | some a =>
        intro b hb
        simp only [Option.map_some', Option.some.injEq] at hb
        subst hb
        obtain ⟨hid, _, _, _⟩ := h a hcs
        refine ⟨by dsimp; omega, ?_, ?_, ?_⟩
        · intro m hm
          rcases List.mem_singleton.mp hm with rfl
          dsimp; omega
        · exact List.pairwise_singleton _ _
        · intro st' hq; exact Phase.noConfusion hq
    · cases hcs : s.currentSession with
      | none => intro sess heq; simp at heq
      | some a =>
        intro b hb
        simp only [Option.map_some', Option.some.injEq] at hb
        subst hb
        obtain ⟨hid, _, _, _⟩ := h a hcs
        refine ⟨by dsimp; omega, ?_, ?_, ?_⟩
        · intro m hm
          rcases List.mem_singleton.mp hm with rfl
          dsimp; omega
        · exact List.pairwise_singleton _ _
        · intro st' hq; exact Phase.noConfusion hq
  | siFail st hp hk =>
    exact sessionInv_carry h rfl (Nat.le_refl _) (fun st' hq => Phase.noConfusion hq)
  | siSpeak hp =>
    exact sessionInv_carry h rfl (Nat.le_refl _) (fun st' hq => Phase.noConfusion hq)
  | submitUser content hp ha hl hc =>
    cases hcs : s.currentSession with
    | none => unfold addMessage; rw [hcs]; exact h
    | some sess =>
      unfold addMessage
      rw [hcs]
      exact sessionInv_append h hcs _ rfl rfl rfl (fun st hq => Phase.noConfusion hq)
  | amOk fv content hist reply hp hk =>
    unfold amGatewayReturn
    dsimp only
    split
    · cases hcs : s.currentSession with
      | none => intro sess heq; simp at heq
      | some a =>
        exact sessionInv_append h hcs _ rfl rfl rfl (fun st hq => Phase.noConfusion hq)
    · cases hcs : s.currentSession with
      | none => intro sess heq; simp at heq
      | some a =>
        exact sessionInv_append h hcs _ rfl rfl rfl (fun st hq => Phase.noConfusion hq)
  | amFail fv content hist hp hk =>
    cases hcs : s.currentSession with
    | none =>
      unfold amGatewayFail
      rw [hcs]
      intro sess heq; simp at heq
    | some a =>
      unfold amGatewayFail
      rw [hcs]
      exact sessionInv_append h hcs _ rfl rfl rfl (fun st hq => Phase.noConfusion hq)
  | amSpeak fv hp =>
    exact sessionInv_carry h rfl (Nat.le_refl _) (fun st' hq => Phase.noConfusion hq)
  | voiceStart hp ha =>
    unfold startVoiceInput
    split
    · exact h
    · split
      · exact h
      · exact sessionInv_carry h rfl (Nat.le_refl _) (fun st' hq => Phase.noConfusion hq)
  | viOk t hp ht hne =>
    unfold viTranscriptOk
    cases hcs : s.currentSession with
    | none =>
      exact sessionInv_carry h (by rw [hcs]) (Nat.le_refl _)
        (fun st' hq => Phase.noConfusion hq)
    | some sess =>
      dsimp only
      split
      · exact sessionInv_carry h (by rw [hcs]) (Nat.le_refl _)
          (fun st' hq => Phase.noConfusion hq)
      · unfold addMessage
        rw [hcs]
        exact sessionInv_append h hcs _ rfl rfl rfl (fun st hq => Phase.noConfusion hq)
  | viFail hp =>
    exact sessionInv_carry h rfl (Nat.le_refl _) (fun st' hq => Phase.noConfusion hq)
  | stopVoice =>
    unfold stopVoiceInput
    split
    · exact sessionInv_carry h rfl (Nat.le_refl _) (fun st' hq => hq)
    · exact h
  | toggleVoice b =>
    exact sessionInv_carry h rfl (Nat.le_refl _) (fun st' hq => hq)
  | endIv r1 r2 r3 r4 r5 r6 =>
    cases hcs : s.currentSession with
    | none => unfold endInterview; rw [hcs]; exact h
    | some sess =>
      unfold endInterview
      rw [hcs]
      dsimp only
      obtain ⟨hid, hts, hpw, hsi⟩ := h sess hcs
      split
      · intro b hb
        injection hb with hb
        subst hb
        refine ⟨by dsimp; omega, ?_, hpw, ?_⟩
        · intro m hm; have := hts m hm; dsimp; omega
        · intro st hq; exact hsi st hq
      · intro b hb
        injection hb with hb
        subst hb
        refine ⟨by dsimp; omega, ?_, hpw, ?_⟩
        · intro m hm; have := hts m hm; dsimp; omega
        · intro st hq; exact hsi st hq

theorem reachable_sessionInv {apiKey recog tts : Bool} {s : CtrlState}
    (h : Reachable apiKey recog tts s) : SessionInv s := by
  induction h with
  | refl => exact sessionInv_init apiKey recog tts
  | tail _ hstep ih => exact sessionInv_step ih hstep

/-- Claim C1, counterexample: the mutual-exclusion claim fails on the code.
In the run c1State — an interview started with voice enabled, followed by a
user text submission whose gateway reply has just arrived and whose playback
is in progress — the controller is reachable in a state where isAiResponding
and isSpeaking are both true (addMessage clears isAiResponding only in its
finally block, which runs after the awaited playback settles). -/
theorem claim1_counterexample :
    Reachable true true true c1State ∧ c1State.isAiResponding = true ∧
    c1State.isSpeaking = true ∧ c1State.phase = Phase.amSpeak false :=
  ⟨reach_c1State, rfl, rfl, rfl⟩

/-- Claim C1, amended: in every reachable state of the controller,
isSpeaking implies isAiResponding — playback only happens inside a
startInterview or addMessage turn, whose responding flag is still set — so
during an AI playback started from within a user-message turn the two flags
are both true rather than mutually exclusive (isListening, however, is false
whenever the controller is outside a voice-input chain). -/
theorem claim1_amended : ∀ (apiKey recog tts : Bool) (s : CtrlState),
    Reachable apiKey recog tts s → s.isSpeaking = true → s.isAiResponding = true := by
  intro apiKey recog tts s h hsp
  obtain ⟨h1, h2⟩ := reachable_flagInv h
  cases hph : s.phase with
  | idle => rw [h1 (by simp [hph, quietPhase])] at hsp; cases hsp
  | vi => rw [h1 (by simp [hph, quietPhase])] at hsp; cases hsp
  | siGateway st => rw [h1 (by simp [hph, quietPhase])] at hsp; cases hsp
  | amGateway fv c hist => rw [h1 (by simp [hph, quietPhase])] at hsp; cases hsp
  | siSpeak => exact h2 (by simp [hph, respondingPhase])
  | amSpeak fv => exact h2 (by simp [hph, respondingPhase])

theorem claim1_amended_witness : c1State.isAiResponding = true :=
  claim1_amended true true true c1State reach_c1State rfl

/-- Claim C3: the transcript is append-only — every step of the controller
either leaves the session's messages unchanged or extends them at the end
(states carrying the same session identifier are related by list prefix, so
no existing message is removed or has its id, content, sender or timestamp
mutated) — and message timestamps are monotonically non-decreasing in
insertion order in every state the controller can be in after the step. -/
theorem claim3_messages_append_only : ∀ (apiKey recog tts : Bool) (s s' : CtrlState),
    Reachable apiKey recog tts s → Step s s' →
    MessagesPreserved s s' ∧ TimestampsSorted s' := by
  intro apiKey recog tts s s' hre hstep
  have hinv := reachable_sessionInv hre
  have hinv' := reachable_sessionInv (Relation.ReflTransGen.tail hre hstep)
  refine ⟨?_, fun sess heq => (hinv' sess heq).2.2.1⟩
  cases hstep with
  | startIv setup hp =>
    intro a b ha hb hid
    simp only [startInterview, Option.some.injEq] at hb
    subst hb
    dsimp only at hid
    exact absurd hid (Nat.ne_of_lt (hinv a ha).1)
  | siOk st reply hp hk =>
    intro a b ha hb hid
    have hmsg : a.messages = [] := ((hinv a ha).2.2.2) st hp
    unfold siGatewayReturn at hb
    dsimp only at hb
    split at hb
    · dsimp only at hb
      rw [ha] at hb
      simp only [Option.map_some', Option.some.injEq] at hb
      subst hb
      rw [hmsg]
      exact List.nil_prefix
    · dsimp only at hb
      rw [ha] at hb
      simp only [Option.map_some', Option.some.injEq] at hb
      subst hb
      rw [hmsg]
      exact List.nil_prefix
  | siFail st hp hk =>
    intro a b ha hb hid
    have hb' : s.currentSession = some b := hb
    rw [ha] at hb'
    injection hb' with hb'
    subst hb'
    exact List.prefix_refl _
  | siSpeak hp =>
    intro a b ha hb hid
    have hb' : s.currentSession = some b := hb
    rw [ha] at hb'
    injection hb' with hb'
    subst hb'
    exact List.prefix_refl _
  | submitUser content hp ha2 hl hc =>
    intro a b ha hb hid
    unfold addMessage at hb
    rw [ha] at hb
    dsimp only at hb
    injection hb with hb
    subst hb
    exact ⟨_, rfl⟩
  | amOk fv content hist reply hp hk =>
    intro a b ha hb hid
    unfold amGatewayReturn at hb
    dsimp only at hb
    split at hb
    · dsimp only at hb
      rw [ha] at hb
      simp only [Option.map_some', Option.some.injEq] at hb
      subst hb
      exact ⟨_, rfl⟩
    · dsimp only at hb
      rw [ha] at hb
      simp only [Option.map_some', Option.some.injEq] at hb
      subst hb
      exact ⟨_, rfl⟩
  | amFail fv content hist hp hk =>
    intro a b ha hb hid
    unfold amGatewayFail at hb
    dsimp only at hb
    rw [ha] at hb
    simp only [Option.map_some', Option.some.injEq] at hb
    subst hb
    exact ⟨_, rfl⟩
  | amSpeak fv hp =>
    intro a b ha hb hid
    have hb' : s.currentSession = some b := hb
    rw [ha] at hb'
    injection hb' with hb'
    subst hb'
    exact List.prefix_refl _
  | voiceStart hp ha2 =>
    intro a b ha hb hid
    unfold startVoiceInput at hb
    split at hb
    · rw [ha] at hb
      injection hb with hb
      subst hb
      exact List.prefix_refl _
    · split at hb
      · rw [ha] at hb
        injection hb with hb
        subst hb
        exact List.prefix_refl _
      · have hb' : s.currentSession = some b := hb
        rw [ha] at hb'
        injection hb' with hb'
        subst hb'
        exact List.prefix_refl _
  | viOk t hp ht hne =>
    intro a b ha hb hid
    unfold viTranscriptOk at hb
    rw [ha] at hb
    dsimp only at hb
    split at hb
    · injection hb with hb
      subst hb
      exact List.prefix_refl _
    · unfold addMessage at hb
      rw [ha] at hb
      dsimp only at hb
      injection hb with hb
      subst hb
      exact ⟨_, rfl⟩
  | viFail hp =>
    intro a b ha hb hid
    have hb' : s.currentSession = some b := hb
    rw [ha] at hb'
    injection hb' with hb'
    subst hb'
    exact List.prefix_refl _
  | stopVoice =>
    intro a b ha hb hid
    unfold stopVoiceInput at hb
    split at hb
    · have hb' : s.currentSession = some b := hb
      rw [ha] at hb'
      injection hb' with hb'
      subst hb'
      exact List.prefix_refl _
    · rw [ha] at hb
      injection hb with hb
      subst hb
      exact List.prefix_refl _
  | toggleVoice b2 =>
    intro a b ha hb hid
    have hb' : s.currentSession = some b := hb
    rw [ha] at hb'
    injection hb' with hb'
    subst hb'
    exact List.prefix_refl _
  | endIv r1 r2 r3 r4 r5 r6 =>
    intro a b ha hb hid
    unfold endInterview at hb
    rw [ha] at hb
    dsimp only at hb
    split at hb
    · injection hb with hb
      subst hb
      exact List.prefix_refl _
    · injection hb with hb
      subst hb
      exact List.prefix_refl _

theorem claim3_witness :
    MessagesPreserved (initState true true true)
      (setIsVoiceEnabled (initState true true true) true) ∧
    TimestampsSorted (setIsVoiceEnabled (initState true true true) true) :=
  claim3_messages_append_only true true true _ _ Relation.ReflTransGen.refl
    (Step.toggleVoice _ true)

/-- Claim C7: for every user text submission against a live session, the
user message is appended to the transcript in the same synchronous run that
issues the gateway request, so when the request is outstanding the
transcript already ends with the submitted message, and the role-tagged
history handed to the gateway is exactly the updated transcript converted
message-by-message, with the just-submitted user turn as its last element. -/
theorem claim7_user_turn_before_request : ∀ (fv : Bool) (s : CtrlState)
    (content : String) (sess : InterviewSession), s.currentSession = some sess →
    ∃ sess', (addMessage fv s content Sender.user).currentSession = some sess' ∧
      sess'.messages = sess.messages ++
        [{ id := s.now, content := content, sender := Sender.user, timestamp := s.now }] ∧
      (addMessage fv s content Sender.user).phase =
        Phase.amGateway fv content (toHistory sess'.messages) ∧
      (toHistory sess'.messages).getLast? =
        some { role := ChatRole.user, content := content } := by
  intro fv s content sess h
  refine ⟨{ sess with messages := sess.messages ++
      [{ id := s.now, content := content, sender := Sender.user, timestamp := s.now }] },
    ?_, rfl, ?_, ?_⟩
  · unfold addMessage
    rw [h]
  · unfold addMessage
    rw [h]
    dsimp only
    congr 1
    unfold toHistory
    rw [List.map_append]
    rfl
  · unfold toHistory
    rw [List.map_append]
    exact List.getLast?_concat _

theorem claim7_witness :
    ∃ sess', (addMessage false (startInterview (initState true true true) setup0)
        "Hello there" Sender.user).currentSession = some sess' ∧
      sess'.messages = [] ++
        [{ id := 2, content := "Hello there", sender := Sender.user, timestamp := 2 }] ∧
      (addMessage false (startInterview (initState true true true) setup0)
        "Hello there" Sender.user).phase =
        Phase.amGateway false "Hello there" (toHistory sess'.messages) ∧
      (toHistory sess'.messages).getLast? =
        some { role := ChatRole.user, content := "Hello there" } :=
  claim7_user_turn_before_request false (startInterview (initState true true true) setup0)
    "Hello there" _ rfl

/-- Claim C10: when no session is active, addMessage and endInterview return
immediately: the whole controller state — session, setup, transcript,
feedback and the four status flags — is left exactly as it was. -/
theorem claim10_no_session_noop : ∀ (fv : Bool) (s : CtrlState) (content : String)
    (sender : Sender) (r1 r2 r3 r4 r5 r6 : Nat), s.currentSession = none →
    addMessage fv s content sender = s ∧
    endInterview s (mkFeedback r1 r2 r3 r4 r5 r6) = s := by
  intro fv s content sender r1 r2 r3 r4 r5 r6 h
  constructor
  · unfold addMessage
    rw [h]
  · unfold endInterview
    rw [h]

theorem claim10_witness :
    addMessage false (initState true true true) "Hello" Sender.user =
      initState true true true ∧
    endInterview (initState true true true) (mkFeedback 0 0 0 0 0 0) =
      initState true true true :=
  claim10_no_session_noop false _ "Hello" Sender.user 0 0 0 0 0 0 rfl

/-! ## Gateway fallback (claim C2) -/

theorem pickFallback_mem (p : Personality) (rand : Nat) :
    pickFallback p rand ∈ fallbackResponses p := by
  have hlen : 0 < (fallbackResponses p).length := by
    cases p <;> simp [fallbackResponses]
  have hlt : rand % (fallbackResponses p).length < (fallbackResponses p).length :=
    Nat.mod_lt _ hlen
  unfold pickFallback
  rw [List.getD_eq_getElem?_getD, List.getElem?_eq_getElem hlt]
  exact List.getElem_mem hlt

/-- Claim C2, counterexample: sendMessage does propagate an error when the
credential is absent — the key check sits before the try block, so even
with a perfectly healthy response outcome the call rejects with a
configuration error instead of drawing a fallback; consequently starting a
session with the gateway unconfigured (the run c2State) yields a session
with zero AI messages, not one drawn from the friendly fallback list. -/
theorem claim2_counterexample :
    sendMessage "" (HttpOutcome.okResponse ["Hello! Please introduce yourself."]) 0
      [{ role := ChatRole.user,
         content := "Please introduce yourself and start the interview." }] setup0 =
      Except.error "OpenRouter API key is not configured" ∧
    Reachable false true true c2State ∧
    (∃ sess, c2State.currentSession = some sess ∧ sess.messages = []) ∧
    c2State.phase = Phase.idle := by
  refine ⟨rfl, ?_, ⟨_, rfl, rfl⟩, rfl⟩
  exact (Relation.ReflTransGen.single (Step.startIv _ setup0 rfl)).tail
    (Step.siFail _ setup0 rfl rfl)

/-- Claim C2, amended: when a credential is present, sendMessage never
propagates an error: every failure outcome — network rejection, non-success
HTTP status, or a response with missing or empty choices — resolves with a
canned utterance drawn from the fixed fallback list for setup.personality;
when the credential is absent the call instead rejects with a configuration
error, so an unconfigured session start appends no AI message at all. -/
theorem claim2_amended : ∀ (apiKey : String) (outcome : HttpOutcome) (rand : Nat)
    (messages : List ChatMsg) (setup : InterviewSetup), apiKey ≠ "" →
    ∃ t, sendMessage apiKey outcome rand messages setup = Except.ok t ∧
      (FailureOutcome outcome → t ∈ fallbackResponses setup.personality) := by
  intro apiKey outcome rand messages setup hk
  unfold sendMessage
  rw [if_neg hk]
  cases outcome with
  | netError => exact ⟨_, rfl, fun _ => pickFallback_mem _ _⟩
  | httpError status body => exact ⟨_, rfl, fun _ => pickFallback_mem _ _⟩
  | okResponse choices =>
    cases choices with
    | nil => exact ⟨_, rfl, fun _ => pickFallback_mem _ _⟩
    | cons c cs => exact ⟨jsTrim c, rfl, fun hf => hf.elim⟩

theorem claim2_amended_witness :
    ∃ t, sendMessage "sk-demo" HttpOutcome.netError 0 [] setup0 = Except.ok t ∧
      (FailureOutcome HttpOutcome.netError → t ∈ fallbackResponses setup0.personality) :=
  claim2_amended "sk-demo" HttpOutcome.netError 0 [] setup0 (by decide)

/-! ## Single-flight capture (claim C5) -/

/-- Claim C5: capture is single-flight.  A startListening call issued while
the service capture is already active fails immediately with the
already-listening (busy) rejection and leaves the service state — hence the
one active capture — untouched; and the provider's startVoiceInput invoked
while isListening is true returns without changing any controller state, so
in particular no duplicate user message can be appended by the second call. -/
theorem claim5_single_flight : ∀ (svc : SpeechSvcState) (s : CtrlState),
    svc.recognitionAvailable = true → svc.listening = true → s.isListening = true →
    startListening svc = (StartListeningResult.rejectedAlreadyListening, svc) ∧
    startVoiceInput s = s := by
  intro svc s hr hl hcl
  constructor
  · unfold startListening
    rw [hr, hl]
    rfl
  · unfold startVoiceInput
    rw [hcl]
    split
    · rfl
    · rfl

theorem claim5_witness :
    startListening { recognitionAvailable := true, listening := true } =
      (StartListeningResult.rejectedAlreadyListening,
       { recognitionAvailable := true, listening := true }) ∧
    startVoiceInput { initState true true true with isListening := true } =
      { initState true true true with isListening := true } :=
  claim5_single_flight { recognitionAvailable := true, listening := true }
    { initState true true true with isListening := true } rfl rfl rfl

/-! ## Capture cancellation (claim C6) -/

/-- Claim C6, counterexample: cancelling an in-flight capture does not make
the pending startListening promise fail — when a final transcript was
already accumulated, the onend handler triggered by stopListening resolves
the promise successfully with that partial text. -/
theorem claim6_counterexample :
    stopListeningSettle { recognitionAvailable := true, listening := true } "hello" =
      ({ recognitionAvailable := true, listening := false },
       some (Except.ok "hello")) := rfl

/-- Claim C6, amended: stopListening on an in-flight capture settles the
pending startListening promise promptly through the onend handler, but the
settlement depends on the accumulated final transcript: it rejects with the
no-speech error when the transcript trims to empty, and otherwise resolves
successfully with the trimmed partial text (there is no distinct
cancellation failure). -/
theorem claim6_amended : ∀ (svc : SpeechSvcState) (finalTranscript : String),
    svc.recognitionAvailable = true → svc.listening = true →
    stopListeningSettle svc finalTranscript =
      ({ svc with listening := false },
       some (if jsTrim finalTranscript = "" then
               Except.error "No speech detected. Please try speaking clearly."
             else Except.ok (jsTrim finalTranscript))) := by
  intro svc ft hr hl
  unfold stopListeningSettle settleOnEnd
  rw [hr, hl]
  rfl

theorem claim6_amended_witness :
    stopListeningSettle { recognitionAvailable := true, listening := true } "" =
      ({ recognitionAvailable := true, listening := false },
       some (Except.error "No speech detected. Please try speaking clearly.")) :=
  claim6_amended { recognitionAvailable := true, listening := true } "" rfl rfl

/-! ## Auto-relisten (claim C4) -/

/-- Claim C4: in the auto-relisten provider variant, whenever voice mode is
enabled and the controller is waiting for the user (not speaking, not
AI-responding, not listening), one evaluation of the level-triggered effect
invokes capture and isListening becomes true with no further external call
(given the platform supports recognition); and re-evaluating the rule while
already listening is a no-op — startVoiceInput invoked with isListening
true changes no state. -/
theorem claim4_auto_relisten : ∀ s : AutoState,
    (s.recognitionSupported = true → relistenCondition s = true →
      (autoRelistenEffect s).isListening = true) ∧
    (s.isListening = true → startVoiceInputAuto s = s) := by
  intro s
  constructor
  · intro hr hc
    have hparts := hc
    simp only [relistenCondition, Bool.and_eq_true, Bool.not_eq_true'] at hparts
    obtain ⟨⟨⟨hsp, hve⟩, hai⟩, hli⟩ := hparts
    unfold autoRelistenEffect
    rw [hc]
    simp only [if_pos]
    unfold startVoiceInputAuto
    rw [hr, hli, hsp]
    rfl
  · intro hl
    unfold startVoiceInputAuto
    rw [hl]
    split
    · rfl
    · rfl

theorem claim4_witness :
    (autoRelistenEffect
        { recognitionSupported := true, isSpeaking := false,
          isVoiceEnabled := true, isAiResponding := false,
          isListening := false }).isListening = true ∧
    startVoiceInputAuto
        { recognitionSupported := true, isSpeaking := false,
          isVoiceEnabled := false, isAiResponding := false, isListening := true } =
      { recognitionSupported := true, isSpeaking := false,
        isVoiceEnabled := false, isAiResponding := false, isListening := true } :=
  ⟨(claim4_auto_relisten _).1 rfl rfl, (claim4_auto_relisten _).2 rfl⟩

/-! ## Playback normalization (claim C8) -/

/-- Claim C8: speak normalizes its input with the separate pure function
processText before synthesis — any utterance it hands to the synthesizer
carries exactly the processText image of the input — and when the
normalized string trims to empty, speak resolves successfully without
producing any audio. -/
theorem claim8_speak_normalizes : ∀ text : String,
    (jsTrim (processText text) = "" → speak true text = SpeakOutcome.resolvedNoAudio) ∧
    (∀ u, speak true text = SpeakOutcome.speaking u → u = processText text) := by
  intro text
  constructor
  · intro h
    unfold speak
    rw [if_neg (by simp)]
    dsimp only
    rw [if_pos h]
  · intro u hu
    unfold speak at hu
    rw [if_neg (by simp)] at hu
    dsimp only at hu
    by_cases h : jsTrim (processText text) = ""
    · rw [if_pos h] at hu
      cases hu
    · rw [if_neg h] at hu
      injection hu with hu
      exact hu.symm

theorem claim8_witness :
    speak true "" = SpeakOutcome.resolvedNoAudio ∧
    "Hello!" = processText " **Hello!** " :=
  ⟨(claim8_speak_normalizes "").1 (by decide),
   (claim8_speak_normalizes " **Hello!** ").2 "Hello!" (by decide)⟩

/-! ## Shape and idempotence of processText (claim C9) -/

theorem char_eq_space {c : Char} (h : cv c = 32) : c = ' ' :=
  Char.ext (UInt32.toNat.inj h)

theorem step6Keep_of_allowed {c : Char} (h : allowedOutChar c = true) :
    step6Keep c = true := by
  simp only [allowedOutChar, isWordChar, isKeptPunct, Bool.or_eq_true, Bool.and_eq_true,
    decide_eq_true_eq] at h
  simp only [step6Keep, isWordChar, isJsWs, isKeptPunct, Bool.or_eq_true, Bool.and_eq_true,
    decide_eq_true_eq]
  omega

theorem allowed_of_keep_not_ws {c : Char} (h1 : step6Keep c = true)
    (h2 : isJsWs c = false) : allowedOutChar c = true := by
  have h2' : ¬(isJsWs c = true) := by simp [h2]
  simp only [step6Keep, isWordChar, isJsWs, isKeptPunct, Bool.or_eq_true, Bool.and_eq_true,
    decide_eq_true_eq] at h1
  simp only [isJsWs, Bool.or_eq_true, Bool.and_eq_true, decide_eq_true_eq] at h2'
  simp only [allowedOutChar, isWordChar, isKeptPunct, Bool.or_eq_true, Bool.and_eq_true,
    decide_eq_true_eq]
  omega

theorem space_of_allowed_ws {c : Char} (h1 : allowedOutChar c = true)
    (h2 : isJsWs c = true) : c = ' ' := by
  apply char_eq_space
  simp only [allowedOutChar, isWordChar, isKeptPunct, Bool.or_eq_true, Bool.and_eq_true,
    decide_eq_true_eq] at h1
  simp only [isJsWs, Bool.or_eq_true, Bool.and_eq_true, decide_eq_true_eq] at h2
  omega

theorem not_emoji_of_allowed {c : Char} (h : allowedOutChar c = true) :
    isEmojiChar c = false := by
  cases he : isEmojiChar c with
  | false => rfl
  | true =>
    exfalso
    simp only [allowedOutChar, isWordChar, isKeptPunct, Bool.or_eq_true, Bool.and_eq_true,
      decide_eq_true_eq] at h
    simp only [isEmojiChar, Bool.or_eq_true, Bool.and_eq_true, decide_eq_true_eq] at he
    omega

theorem not_hash_of_allowed {c : Char} (h : allowedOutChar c = true) : cv c ≠ 35 := by
  simp only [allowedOutChar, isWordChar, isKeptPunct, Bool.or_eq_true, Bool.and_eq_true,
    decide_eq_true_eq] at h
  omega

theorem mem_collapseWsAux : ∀ (b : Bool) (l : List Char) (c : Char),
    c ∈ collapseWsAux b l → c = ' ' ∨ (c ∈ l ∧ isJsWs c = false) := by
  intro b l
  induction l generalizing b with
  | nil => intro c hc; cases b <;> simp [collapseWsAux] at hc
  | cons d ds ih =>
    intro c hc
    cases b with
    | true =>
      unfold collapseWsAux at hc
      split at hc
      · rcases ih true c hc with h | ⟨hm, hw⟩
        · exact Or.inl h
        · exact Or.inr ⟨List.mem_cons_of_mem _ hm, hw⟩
      · rename_i hwd
        rcases List.mem_cons.mp hc with h | hc2
        · subst h
          exact Or.inr ⟨List.mem_cons_self _ _, by simpa using hwd⟩
        · rcases ih false c hc2 with h | ⟨hm, hw⟩
          · exact Or.inl h
          · exact Or.inr ⟨List.mem_cons_of_mem _ hm, hw⟩
    | false =>
      unfold collapseWsAux at hc
      split at hc
      · rcases List.mem_cons.mp hc with h | hc2
        · exact Or.inl h
        · rcases ih true c hc2 with h | ⟨hm, hw⟩
          · exact Or.inl h
          · exact Or.inr ⟨List.mem_cons_of_mem _ hm, hw⟩
      · rename_i hwd
        rcases List.mem_cons.mp hc with h | hc2
        · subst h
          exact Or.inr ⟨List.mem_cons_self _ _, by simpa using hwd⟩
        · rcases ih false c hc2 with h | ⟨hm, hw⟩
          · exact Or.inl h
          · exact Or.inr ⟨List.mem_cons_of_mem _ hm, hw⟩

theorem head_collapseWsAux_true : ∀ (l : List Char) (c : Char),
    (collapseWsAux true l).head? = some c → isJsWs c = false := by
  intro l
  induction l with
  | nil => intro c hc; simp [collapseWsAux] at hc
  | cons d ds ih =>
    intro c hc
    unfold collapseWsAux at hc
    split at hc
    · exact ih c hc
    · rename_i hwd
      injection hc with hc
      subst hc
      simpa using hwd

theorem chain'_collapseWsAux : ∀ (l : List Char) (b : Bool),
    List.Chain' NoWsPair (collapseWsAux b l) := by
  intro l
  induction l with
  | nil => intro b; cases b <;> exact List.chain'_nil
  | cons d ds ih =>
    intro b
    cases b with
    | true =>
      unfold collapseWsAux
      split
      · exact ih true
      · rename_i hwd
        refine List.chain'_cons'.mpr ⟨?_, ih false⟩
        intro y _
        exact fun ⟨h1, _⟩ => by simp [h1] at hwd
    | false =>
      unfold collapseWsAux
      split
      · refine List.chain'_cons'.mpr ⟨?_, ih true⟩
        intro y hy
        have := head_collapseWsAux_true ds y hy
        exact fun ⟨_, h2⟩ => by rw [this] at h2; cases h2
      · rename_i hwd
        refine List.chain'_cons'.mpr ⟨?_, ih false⟩
        intro y _
        exact fun ⟨h1, _⟩ => by simp [h1] at hwd

theorem collapseWsAux_false_id : ∀ l : List Char,
    List.Chain' NoWsPair l → (∀ c ∈ l, isJsWs c = true → c = ' ') →
    collapseWsAux false l = l := by
  intro l
  induction l with
  | nil => intro _ _; rfl
  | cons d ds ih =>
    intro hch hall
    obtain ⟨hhd, htl⟩ := List.chain'_cons'.mp hch
    by_cases hws : isJsWs d = true
    · have hd : d = ' ' := hall d (List.mem_cons_self _ _) hws
      unfold collapseWsAux
      rw [if_pos hws, hd]
      cases ds with
      | nil => rfl
      | cons e es =>
        have hne : NoWsPair d e := hhd e rfl
        have hwe : isJsWs e = false := by
          cases he : isJsWs e with
          | false => rfl
          | true => exact absurd ⟨hws, he⟩ hne
        have hih := ih htl (fun c hc h => hall c (List.mem_cons_of_mem _ hc) h)
        unfold collapseWsAux at hih
        rw [if_neg (by simp [hwe])] at hih
        injection hih with _ hes
        congr 1
        unfold collapseWsAux
        rw [if_neg (by simp [hwe])]
        rw [hes]
    · unfold collapseWsAux
      rw [if_neg hws]
      congr 1
      exact ih htl (fun c hc h => hall c (List.mem_cons_of_mem _ hc) h)

theorem head_dropWhile (p : Char → Bool) : ∀ (l : List Char) (c : Char),
    (l.dropWhile p).head? = some c → p c = false := by
  intro l
  induction l with
  | nil => intro c hc; simp at hc
  | cons d ds ih =>
    intro c hc
    by_cases hp : p d = true
    · rw [List.dropWhile_cons_of_pos hp] at hc
      exact ih c hc
    · rw [List.dropWhile_cons_of_neg hp] at hc
      injection hc with hc
      subst hc
      simpa using hp

theorem dropWhile_eq_self_of_head (p : Char → Bool) : ∀ l : List Char,
    (∀ c, l.head? = some c → p c = false) → l.dropWhile p = l := by
  intro l h
  cases l with
  | nil => rfl
  | cons d ds =>
    rw [List.dropWhile_cons_of_neg]
    simp [h d rfl]

theorem mem_jsTrimList {l : List Char} {c : Char} (h : c ∈ jsTrimList l) : c ∈ l := by
  unfold jsTrimList at h
  rw [List.mem_reverse] at h
  have h2 := (List.dropWhile_suffix isJsWs).subset h
  rw [List.mem_reverse] at h2
  exact (List.dropWhile_suffix isJsWs).subset h2

theorem chain'_jsTrimList {l : List Char} (h : List.Chain' NoWsPair l) :
    List.Chain' NoWsPair (jsTrimList l) := by
  have h1 : l.dropWhile isJsWs <:+ l := List.dropWhile_suffix _
  have h2 : (l.dropWhile isJsWs).reverse.dropWhile isJsWs <:+
      (l.dropWhile isJsWs).reverse := List.dropWhile_suffix _
  have h3 : ((l.dropWhile isJsWs).reverse.dropWhile isJsWs).reverse <+:
      l.dropWhile isJsWs := by
    rw [← List.reverse_suffix, List.reverse_reverse]
    exact h2
  exact h.infix (List.IsInfix.trans (List.IsPrefix.isInfix h3) (List.IsSuffix.isInfix h1))

theorem head_jsTrimList {l : List Char} {c : Char}
    (h : (jsTrimList l).head? = some c) : isJsWs c = false := by
  unfold jsTrimList at h
  rw [List.head?_reverse] at h
  obtain ⟨t, ht⟩ := List.dropWhile_suffix (l := (l.dropWhile isJsWs).reverse) isJsWs
  have hC : ((l.dropWhile isJsWs).reverse).getLast? = some c := by
    rw [← ht, List.getLast?_append, h]
    rfl
  rw [List.getLast?_reverse] at hC
  exact head_dropWhile isJsWs _ _ hC

theorem last_jsTrimList {l : List Char} {c : Char}
    (h : (jsTrimList l).getLast? = some c) : isJsWs c = false := by
  unfold jsTrimList at h
  rw [List.getLast?_reverse] at h
  exact head_dropWhile isJsWs _ _ h

theorem jsTrimList_id : ∀ l : List Char,
    (∀ c, l.head? = some c → isJsWs c = false) →
    (∀ c, l.getLast? = some c → isJsWs c = false) →
    jsTrimList l = l := by
  intro l hh hl
  unfold jsTrimList
  rw [dropWhile_eq_self_of_head isJsWs l hh]
  rw [dropWhile_eq_self_of_head isJsWs l.reverse
    (fun c hc => hl c (by rwa [List.head?_reverse] at hc))]
  exact List.reverse_reverse l

theorem mem_replaceSpecial {l : List Char} {c : Char} (h : c ∈ replaceSpecial l) :
    step6Keep c = true := by
  unfold replaceSpecial at h
  rw [List.mem_map] at h
  obtain ⟨a, _, ha⟩ := h
  by_cases hk : step6Keep a = true
  · rw [if_pos hk] at ha
    subst ha
    exact hk
  · rw [if_neg hk] at ha
    subst ha
    decide

theorem replaceSpecial_id : ∀ l : List Char, (∀ c ∈ l, step6Keep c = true) →
    replaceSpecial l = l := by
  intro l
  unfold replaceSpecial
  induction l with
  | nil => intro _; rfl
  | cons d ds ih =>
    intro h
    rw [List.map_cons, if_pos (h d (List.mem_cons_self _ _)),
      ih (fun c hc => h c (List.mem_cons_of_mem _ hc))]

theorem removeEmojis_id {l : List Char} (h : ∀ c ∈ l, isEmojiChar c = false) :
    removeEmojis l = l := by
  unfold removeEmojis
  rw [List.filter_eq_self]
  intro a ha
  simp [h a ha]

theorem replaceBoldF_id : ∀ (fuel : Nat) (l : List Char), '*' ∉ l →
    replaceBoldF fuel l = l := by
  intro fuel l
  induction l generalizing fuel with
  | nil => intro _; cases fuel <;> rfl
  | cons d ds ih =>
    intro h
    have hd : ¬(d = '*') := fun he => h (by rw [← he]; exact List.mem_cons_self _ _)
    have hds : '*' ∉ ds := fun hm => h (List.mem_cons_of_mem _ hm)
    cases fuel with
    | zero => rfl
    | succ f =>
      unfold replaceBoldF
      rw [if_neg hd, ih f hds]

theorem replaceDelim1F_id (d : Char) : ∀ (fuel : Nat) (l : List Char), d ∉ l →
    replaceDelim1F d fuel l = l := by
  intro fuel l
  induction l generalizing fuel with
  | nil => intro _; cases fuel <;> rfl
  | cons e es ih =>
    intro h
    have he : ¬(e = d) := fun heq => h (by rw [← heq]; exact List.mem_cons_self _ _)
    have hes : d ∉ es := fun hm => h (List.mem_cons_of_mem _ hm)
    cases fuel with
    | zero => rfl
    | succ f =>
      unfold replaceDelim1F
      rw [if_neg he, ih f hes]

theorem replaceHeadersF_id : ∀ (fuel : Nat) (l : List Char), (∀ c ∈ l, cv c ≠ 35) →
    replaceHeadersF fuel l = l := by
  intro fuel l
  induction l generalizing fuel with
  | nil => intro _; cases fuel <;> rfl
  | cons d ds ih =>
    intro h
    have hd : ¬(cv d = 35) := h d (List.mem_cons_self _ _)
    have hds : ∀ c ∈ ds, cv c ≠ 35 := fun c hc => h c (List.mem_cons_of_mem _ hc)
    cases fuel with
    | zero => rfl
    | succ f =>
      unfold replaceHeadersF
      rw [if_neg hd, ih f hds]

/-- Shape of the pipeline output: every character is an ASCII word
character, a space or kept punctuation; no two adjacent characters are both
whitespace; and neither end is whitespace. -/
theorem processTextList_out (l : List Char) :
    (∀ c ∈ processTextList l, allowedOutChar c = true) ∧
    List.Chain' NoWsPair (processTextList l) ∧
    (∀ c, (processTextList l).head? = some c → isJsWs c = false) ∧
    (∀ c, (processTextList l).getLast? = some c → isJsWs c = false) := by
  refine ⟨?_, ?_, ?_, ?_⟩
  · intro c hc
    have h1 := mem_jsTrimList hc
    rcases mem_collapseWsAux false _ c h1 with h | ⟨hm, hws⟩
    · subst h; decide
    · exact allowed_of_keep_not_ws (mem_replaceSpecial hm) hws
  · exact chain'_jsTrimList (chain'_collapseWsAux _ false)
  · intro c hc; exact head_jsTrimList hc
  · intro c hc; exact last_jsTrimList hc

/-- Idempotence of the pipeline: on a string already of output shape every
stage is the identity. -/
theorem processTextList_idem (l : List Char) :
    processTextList (processTextList l) = processTextList l := by
  obtain ⟨hall, hch, hhd, hlast⟩ := processTextList_out l
  set y := processTextList l with hy
  have hstar : '*' ∉ y := fun hm => absurd (hall '*' hm) (by decide)
  have hbk : Char.ofNat 96 ∉ y := fun hm => absurd (hall _ hm) (by decide)
  have hhash : ∀ c ∈ y, cv c ≠ 35 := fun c hc => not_hash_of_allowed (hall c hc)
  unfold processTextList
  rw [removeEmojis_id (fun c hc => not_emoji_of_allowed (hall c hc))]
  have hB : replaceBold y = y := replaceBoldF_id y.length y hstar
  rw [hB]
  have hI : replaceDelim1 '*' y = y := replaceDelim1F_id '*' y.length y hstar
  rw [hI]
  have hK : replaceDelim1 (Char.ofNat 96) y = y :=
    replaceDelim1F_id (Char.ofNat 96) y.length y hbk
  rw [hK]
  have hH : replaceHeaders y = y := replaceHeadersF_id y.length y hhash
  rw [hH]
  rw [replaceSpecial_id y (fun c hc => step6Keep_of_allowed (hall c hc))]
  have hW : collapseWs y = y :=
    collapseWsAux_false_id y hch (fun c hc hw => space_of_allowed_ws (hall c hc) hw)
  rw [hW]
  exact jsTrimList_id y hhd hlast

/-- Claim C9: processText is idempotent, and its output consists only of
ASCII word characters, single space separators (no two adjacent whitespace
characters) and the punctuation characters comma, period, exclamation mark,
question mark, apostrophe, double quote, colon, em dash and hyphen, with no
leading or trailing whitespace. -/
theorem claim9_processText_idempotent : ∀ s : String,
    processText (processText s) = processText s ∧
    (∀ c ∈ (processText s).toList, allowedOutChar c = true) ∧
    List.Chain' NoWsPair (processText s).toList ∧
    (∀ c ∈ (processText s).toList.head?, isJsWs c = false) ∧
    (∀ c ∈ (processText s).toList.getLast?, isJsWs c = false) := by
  intro s
  obtain ⟨hall, hch, hhd, hlast⟩ := processTextList_out s.toList
  have hL : (processText s).toList = processTextList s.toList := rfl
  rw [hL]
  refine ⟨?_, hall, hch, fun c hc => hhd c hc, fun c hc => hlast c hc⟩
  show String.mk (processTextList (String.mk (processTextList s.toList)).toList) =
    String.mk (processTextList s.toList)
  rw [show (String.mk (processTextList s.toList)).toList = processTextList s.toList from rfl]
  exact congrArg String.mk (processTextList_idem s.toList)

end AIInterviewer

